import Mathlib

/-!
Verification of the core logic of `crust-order-status` (src/index.js):
the line parser, the on-chain status classifier, the retry wrapper,
the per-line processing loop, and the report assembler's table policy.

JavaScript strings are modelled as Lean `String` (lists of characters),
JavaScript numbers appearing as sizes, replica counts and block heights
as `Nat`, and the possibly-negative `parseInt` results as `Int`.
Fallible operations return `Option` / `Except`.
-/

namespace CrustOrderStatus

/-! ### Character classes used by the parser (src/index.js lines 97-155)

`isDigitCh` models the regex `/\d/`, `isAlnumCh` models `/[A-Za-z0-9]/`,
`isSpaceTab` models the explicit `' '`/`'\t'` checks, and `isJsWS` models
the whitespace class trimmed by JavaScript `String.prototype.trim`
(restricted to the ASCII whitespace characters). -/

def isDigitCh (c : Char) : Bool := decide (48 ≤ c.toNat ∧ c.toNat ≤ 57)

def isAlnumCh (c : Char) : Bool :=
  decide ((65 ≤ c.toNat ∧ c.toNat ≤ 90) ∨ (97 ≤ c.toNat ∧ c.toNat ≤ 122) ∨
    (48 ≤ c.toNat ∧ c.toNat ≤ 57))

def isSpaceTab (c : Char) : Bool := decide (c.toNat = 32 ∨ c.toNat = 9)

def isJsWS (c : Char) : Bool :=
  decide (c.toNat = 32 ∨ c.toNat = 9 ∨ c.toNat = 10 ∨ c.toNat = 13 ∨
    c.toNat = 11 ∨ c.toNat = 12)

/-- JavaScript `String.prototype.trim` on a character list: drop whitespace
from the front, then from the back. -/
def jsTrim (l : List Char) : List Char :=
  ((l.dropWhile isJsWS).reverse.dropWhile isJsWS).reverse

/-- Value of a decimal digit string, as computed by `parseInt(s, 10)` on a
string of digits (most significant digit first). -/
def digitsToNat (l : List Char) : Nat :=
  l.foldl (fun a c => a * 10 + (c.toNat - 48)) 0

/-- `ParsedLine` record produced by the line parser (JSDoc typedef in
src/index.js lines 11-16). -/
structure ParsedLine where
  fileName : String
  fileCid : String
  fileSize : Nat
deriving DecidableEq

/-- `parseLine` (src/index.js lines 97-155).  The right-to-left index loop is
rendered by reversing the trimmed character list and scanning with
`takeWhile`/`dropWhile`:
step 1 takes the maximal digit run from the right (the size),
step 2 skips spaces/tabs, step 3 takes the maximal alphanumeric run (the
CID), step 4 skips spaces/tabs, and steps 5-6 trim the remaining prefix and
strip every `'/'` to obtain the name.  Any empty mandatory field rejects the
line with `none`. -/
def parseLine (line : String) : Option ParsedLine :=
  let t := jsTrim line.toList
  if t.isEmpty then none
  else
    let r := t.reverse
    let sizeR := r.takeWhile isDigitCh
    let r1 := r.dropWhile isDigitCh
    if sizeR.isEmpty then none
    else
      let r2 := r1.dropWhile isSpaceTab
      let cidR := r2.takeWhile isAlnumCh
      let r3 := r2.dropWhile isAlnumCh
      if cidR.isEmpty then none
      else
        let r4 := r3.dropWhile isSpaceTab
        let nameChars := (jsTrim r4.reverse).filter (fun c => c != '/')
        if nameChars.isEmpty then none
        else some ⟨String.mk nameChars, String.mk cidR.reverse, digitsToNat sizeR.reverse⟩

/-! ### Status classifier (src/index.js lines 183-215) -/

/-- The JSON of an on-chain `filesV2` record.  Fields that may be missing in
the JSON are `Option`; the surrounding `orderJson` may itself be `null`
(`Option OnchainRecord` at use sites). -/
structure OnchainRecord where
  file_size : Option Nat
  reported_replica_count : Option Nat
  expired_at : Option Nat
deriving DecidableEq

/-- Result triple returned by `queryFileCid`. -/
structure QueryResult where
  fileOnchainStatus : String
  fileReplicas : Nat
  responseFileSize : String
deriving DecidableEq

/-- The JavaScript truthiness test `orderJson && orderJson.file_size`:
true exactly when the record is present and its `file_size` field is
present and non-zero. -/
def hasTruthySize : Option OnchainRecord → Bool
  | none => false
  | some r =>
    match r.file_size with
    | none => false
    | some n => n != 0

/-- Classification body of `queryFileCid` (src/index.js lines 186-213),
with the already-fetched record and current block height as inputs.
`reported_replica_count || 0` and `expired_at || 0` are `Option.getD 0`
(a present `0` and an absent field both yield `0`), and the on-chain size
is rendered in decimal for the display field, `"Unknown"` when the
truthiness test fails. -/
def queryFileCid (orderJson : Option OnchainRecord) (currentBlockNumber : Nat) : QueryResult :=
  match orderJson with
  | some r =>
    match r.file_size with
    | some n =>
      if n != 0 then
        let fileReplicas := r.reported_replica_count.getD 0
        let expiredAt := r.expired_at.getD 0
        let st :=
          if currentBlockNumber ≥ expiredAt then "Expired"
          else if fileReplicas > 0 then "Success"
          else "Pending"
        ⟨st, fileReplicas, toString n⟩
      else ⟨"NotFound", 0, "Unknown"⟩
    | none => ⟨"NotFound", 0, "Unknown"⟩
  | none => ⟨"NotFound", 0, "Unknown"⟩

/-! ### Retry wrapper (src/index.js lines 158-181)

The asynchronous operation is modelled as a function from the attempt
index (0-based) to an `Except` outcome, so that distinct attempts may
succeed or fail independently.  `retryOperation` returns the final
outcome paired with the number of times the operation was invoked.
In the source, `currentRetry` is incremented after each failure and the
loop rethrows once `currentRetry >= maxRetries`; the delays between
attempts do not affect the outcome and are not modelled. -/

def retryGo (op : Nat → Except ε α) : Nat → Nat → Except ε α × Nat
  | attempt, remaining =>
    match op attempt with
    | .ok a => (.ok a, attempt + 1)
    | .error e =>
      match remaining with
      | 0 => (.error e, attempt + 1)
      | r + 1 => retryGo op (attempt + 1) r

/-- `retryOperation(operation, maxRetries)`: run attempt 0; after a failed
attempt `k` the counter becomes `k+1` and the error is rethrown when
`k+1 >= maxRetries`, so at most `maxRetries` invocations happen (one when
`maxRetries = 0`, since the first failure already rethrows). -/
def retryOperation (op : Nat → Except ε α) (maxRetries : Nat) : Except ε α × Nat :=
  retryGo op 0 (maxRetries - 1)

/-! ### Per-line processing loop (src/index.js lines 251-285) -/

/-- Row of TABLE 1 (`results` entries built in `processLines`). -/
structure ResultItem where
  fileName : String
  fileCid : String
  fileSize : String
  fileOnchainStatus : String
  fileReplicas : Nat
deriving DecidableEq

/-- `SkippedLine` record (JSDoc typedef in src/index.js lines 27-33). -/
structure SkippedLine where
  lineNumber : Nat
  line : String
  reason : String
  parsedData : Option ParsedLine
deriving DecidableEq

/-- Loop body of `processLines`: the already-retried query is modelled as a
function from the CID to an `Except` outcome (the classified
`QueryResult`, or the final error after exhausted retries).  The counter
is the 1-based line number of the head of the remaining list. -/
def processGo (query : String → Except String QueryResult) :
    Nat → List String → List ResultItem × List SkippedLine
  | _, [] => ([], [])
  | n, l :: rest =>
    match parseLine l with
    | none =>
      let p := processGo query (n + 1) rest
      (p.1, ⟨n, l, "Incorrect format", none⟩ :: p.2)
    | some parsed =>
      match query parsed.fileCid with
      | .ok q =>
        let p := processGo query (n + 1) rest
        (⟨parsed.fileName, parsed.fileCid,
          q.responseFileSize ++ " (" ++ toString parsed.fileSize ++ ")",
          q.fileOnchainStatus, q.fileReplicas⟩ :: p.1, p.2)
      | .error e =>
        let p := processGo query (n + 1) rest
        (p.1, ⟨n, l, "Query failed after retries: " ++ e, some parsed⟩ :: p.2)

/-- `processLines` over the in-memory line list (line numbers start at 1),
returning the `results` and `skippedLines` collections. -/
def processLines (query : String → Except String QueryResult) (lines : List String) :
    List ResultItem × List SkippedLine :=
  processGo query 1 lines

/-! ### CLI option handling (src/index.js lines 49-74 and 56/308-309) -/

/-- `parseBoolean` (src/index.js lines 49-54) restricted to the string case
(CLI option values are always strings when present):
`value.toLowerCase() === 'true'`, with the lowercase conversion applied
character by character. -/
def parseBoolean (value : String) : Bool :=
  String.mk (value.toList.map Char.toLower) == "true"

/-- Truthiness of an optional string option: `undefined` and `''` are falsy,
every other string is truthy. -/
def jsTruthy : Option String → Bool
  | none => false
  | some s => s != ""

/-- The save-enablement chain (src/index.js lines 64-74):
`saveLogModeSpecified` is `getOptionValueSource('saveLogMode') !== 'default'`,
`outOpt` is `options.out` (`none` for `undefined`), `saveLogOpt` is
`options.saveLog`.  Note the second branch tests the truthiness of
`options.out`, not its mere presence. -/
def computeSaveLog (saveLogModeSpecified : Bool) (outOpt : Option String)
    (saveLogOpt : Option String) : Bool :=
  if saveLogModeSpecified then true
  else if jsTruthy outOpt then true
  else
    match saveLogOpt with
    | some v => parseBoolean v
    | none => false

/-- The save-enablement precedence exactly as the specification words it,
for comparison with `computeSaveLog`: here the `--out` branch fires on mere
presence of the option, not on its truthiness. -/
def saveLogClaimedPrecedence (saveLogModeSpecified : Bool) (outOpt : Option String)
    (saveLogOpt : Option String) : Bool :=
  if saveLogModeSpecified then true
  else if outOpt.isSome then true
  else
    match saveLogOpt with
    | some v => parseBoolean v
    | none => false

/-- A concrete operation for exercising the retry wrapper: fails on the
first two attempts, succeeds with 42 on the third. -/
def opFailTwice : Nat → Except String Nat :=
  fun n => if n < 2 then .error ("fail " ++ toString n) else .ok 42

/-- JavaScript `parseInt(s, 10)`: skip leading whitespace, read an optional
sign, then the maximal leading digit run; no digits means `NaN`
(modelled as `none`). -/
def jsParseInt (s : String) : Option Int :=
  let l := s.toList.dropWhile isJsWS
  match l with
  | '-' :: t =>
    let ds := t.takeWhile isDigitCh
    if ds.isEmpty then none else some (-(digitsToNat ds : Int))
  | '+' :: t =>
    let ds := t.takeWhile isDigitCh
    if ds.isEmpty then none else some (digitsToNat ds : Int)
  | t =>
    let ds := t.takeWhile isDigitCh
    if ds.isEmpty then none else some (digitsToNat ds : Int)

/-- `parseInt(options.minReplicasCount, 10) || 3` (src/index.js lines 56 and
309): `NaN` and `0` are both falsy, so they fall back to the default 3. -/
def effectiveMinReplicas (s : String) : Int :=
  match jsParseInt s with
  | none => 3
  | some n => if n = 0 then 3 else n

/-! ### Report assembler (src/index.js lines 301-440) -/

/-- TABLE 1: header, separator, then one tab-separated row per result in
original order (src/index.js lines 311-322). -/
def table1Lines (results : List ResultItem) : List String :=
  "FILE_NAME\tFILE_CID\tFILE_SIZE\tFILE_ONCHAIN_STATUS\tFILE_REPLICAS" :: "----" ::
    results.map (fun item =>
      item.fileName ++ "\t" ++ item.fileCid ++ "\t" ++ item.fileSize ++ "\t" ++
        item.fileOnchainStatus ++ "\t" ++ toString item.fileReplicas)

/-- TABLE 2 filter predicate (src/index.js lines 331-335):
`status !== 'Success' || (status === 'Success' && replicas < minReplicasCount)`. -/
def table2Pred (minReplicasCount : Int) (item : ResultItem) : Bool :=
  (item.fileOnchainStatus != "Success") ||
    ((item.fileOnchainStatus == "Success") &&
      decide ((item.fileReplicas : Int) < minReplicasCount))

/-- The regex search `fileSize.match(/\((\d+)\)/)`: find the first `'('`
followed by a non-empty maximal digit run followed by `')'`, returning the
digit run. -/
def extractParenDigits : List Char → Option (List Char)
  | [] => none
  | c :: rest =>
    if c = '(' then
      let ds := rest.takeWhile isDigitCh
      match rest.dropWhile isDigitCh with
      | ')' :: _ => if ds.isEmpty then extractParenDigits rest else some ds
      | _ => extractParenDigits rest
    else extractParenDigits rest

/-- TABLE 2 data rows (src/index.js lines 330-342): filter, then render
name, CID and the input-claimed size extracted back out of the display
size (`'Unknown'` when the pattern is absent). -/
def table2Data (results : List ResultItem) (minReplicasCount : Int) : List String :=
  (results.filter (table2Pred minReplicasCount)).map (fun item =>
    let inputFileSize :=
      match extractParenDigits item.fileSize.toList with
      | some ds => String.mk ds
      | none => "Unknown"
    item.fileName ++ "\t" ++ item.fileCid ++ "\t" ++ inputFileSize)

/-- TABLE 2 with header and separator (src/index.js lines 324-344). -/
def table2Lines (results : List ResultItem) (minReplicasCount : Int) : List String :=
  "FILE_NAME\tFILE_CID\tFILE_SIZE(INPUT FILE SIZE ONLY)" :: "----" ::
    table2Data results minReplicasCount

/-- Skipped entries that carry `parsedData` (src/index.js line 353). -/
def skippedWithData (skippedLines : List SkippedLine) : List SkippedLine :=
  skippedLines.filter (fun item => item.parsedData.isSome)

/-- TABLE 3 rows for skipped entries with parsed data
(src/index.js lines 346-362). -/
def table3Lines (skippedLines : List SkippedLine) : List String :=
  "SKIPPED_FILE_NAME\tSKIPPED_FILE_CID\tSKIPPED_FILE_SIZE\tREASON" :: "----" ::
    (skippedWithData skippedLines).map (fun item =>
      match item.parsedData with
      | some p => p.fileName ++ "\t" ++ p.fileCid ++ "\t" ++ toString p.fileSize ++
          "\t" ++ item.reason
      | none => "")

/-- The `default`-mode output: TABLE 1, `====`, TABLE 2, and TABLE 3 with
another `====` when non-empty (src/index.js lines 367-376 and 387-397). -/
def defaultModeLines (results : List ResultItem) (skippedLines : List SkippedLine)
    (minReplicasCount : Int) : List String :=
  table1Lines results ++ ["===="] ++ table2Lines results minReplicasCount ++
    (if (skippedWithData skippedLines).length > 0 then
      ["===="] ++ table3Lines skippedLines
    else [])

/-- The file-writing decision of `outputResults` (src/index.js lines
364-414): `some outputLines` when a log file is written with those lines,
`none` when no file is written (either `saveLog` is off — console-only
path — or mode `table2` with an empty TABLE 2).  `optSaveLogMode` is
`options.saveLogMode` passed through `|| 'default'`, and
`optMinReplicas` is the raw `options.minReplicasCount` string passed
through `parseInt(·, 10) || 3`. -/
def outputFileLines (results : List ResultItem) (skippedLines : List SkippedLine)
    (saveLog : Bool) (optSaveLogMode : Option String) (optMinReplicas : String) :
    Option (List String) :=
  let saveLogMode :=
    match optSaveLogMode with
    | some s => if s = "" then "default" else s
    | none => "default"
  let minReplicasCount := effectiveMinReplicas optMinReplicas
  if saveLog then
    if saveLogMode = "default" then
      some (defaultModeLines results skippedLines minReplicasCount)
    else if saveLogMode = "table2" then
      if (table2Data results minReplicasCount).isEmpty then none
      else some (table2Data results minReplicasCount)
    else some (defaultModeLines results skippedLines minReplicasCount)
  else none

/-! ## Helper lemmas -/

/-! ### Helper lemmas about the character classes -/

theorem isAlnumCh_of_isDigitCh {c : Char} (h : isDigitCh c = true) : isAlnumCh c = true := by
  simp only [isDigitCh, isAlnumCh, decide_eq_true_eq] at h ⊢
  omega

theorem isJsWS_of_isSpaceTab {c : Char} (h : isSpaceTab c = true) : isJsWS c = true := by
  simp only [isSpaceTab, isJsWS, decide_eq_true_eq] at h ⊢
  omega

theorem not_isJsWS_of_isAlnumCh {c : Char} (h : isAlnumCh c = true) : isJsWS c = false := by
  simp only [isAlnumCh, isJsWS, decide_eq_true_eq, decide_eq_false_iff_not] at h ⊢
  omega

theorem not_isSpaceTab_of_isAlnumCh {c : Char} (h : isAlnumCh c = true) :
    isSpaceTab c = false := by
  simp only [isAlnumCh, isSpaceTab, decide_eq_true_eq, decide_eq_false_iff_not] at h ⊢
  omega

theorem not_isJsWS_of_isDigitCh {c : Char} (h : isDigitCh c = true) : isJsWS c = false :=
  not_isJsWS_of_isAlnumCh (isAlnumCh_of_isDigitCh h)

theorem not_isSpaceTab_of_not_isJsWS {c : Char} (h : isJsWS c = false) :
    isSpaceTab c = false := by
  simp only [isSpaceTab, isJsWS, decide_eq_false_iff_not] at h ⊢
  omega

/-! ### Helper lemmas about takeWhile and dropWhile -/

theorem dropWhile_eq_self_of_head {p : Char → Bool} {l : List Char}
    (h : ∀ c, l.head? = some c → p c = false) : l.dropWhile p = l := by
  cases l with
  | nil => rfl
  | cons c t => exact List.dropWhile_cons_of_neg (by simp [h c rfl])

theorem takeWhile_eq_nil_of_head {p : Char → Bool} {l : List Char}
    (h : ∀ c, l.head? = some c → p c = false) : l.takeWhile p = [] := by
  cases l with
  | nil => rfl
  | cons c t => exact List.takeWhile_cons_of_neg (by simp [h c rfl])

theorem dropWhile_dropWhile_of_imp {p q : Char → Bool}
    (hpq : ∀ c, p c = true → q c = true) (l : List Char) :
    (l.dropWhile p).dropWhile q = l.dropWhile q := by
  induction l with
  | nil => rfl
  | cons c t ih =>
    by_cases hp : p c = true
    · rw [List.dropWhile_cons_of_pos hp, ih, List.dropWhile_cons_of_pos (hpq c hp)]
    · rw [List.dropWhile_cons_of_neg (by simp [hp] : ¬ (p c = true))]

theorem jsTrim_eq_dropWhile {l : List Char}
    (h : ∀ c, ((l.dropWhile isJsWS).reverse).head? = some c → isJsWS c = false) :
    jsTrim l = l.dropWhile isJsWS := by
  unfold jsTrim
  rw [dropWhile_eq_self_of_head h, List.reverse_reverse]

theorem toList_append (s t : String) : (s ++ t).toList = s.toList ++ t.toList := rfl

theorem mk_toList (s : String) : String.mk s.toList = s := rfl


theorem isDigitCh_space : isDigitCh ' ' = false := by decide

theorem isAlnumCh_space : isAlnumCh ' ' = false := by decide

theorem isSpaceTab_space : isSpaceTab ' ' = true := by decide

/-- `jsTrim` of the reversed tail after the space/tab skip of step 4 agrees
with `jsTrim` of the original name portion: step 4 only removes trailing
spaces/tabs, which the final trim would remove anyway. -/
theorem jsTrim_after_spaceTab_skip (nameL : List Char) :
    jsTrim (((nameL.dropWhile isJsWS).reverse.dropWhile isSpaceTab).reverse) =
      jsTrim nameL := by
  set u := (nameL.dropWhile isJsWS).reverse with hu
  set v := u.dropWhile isSpaceTab with hv
  have hsplit : v.reverse ++ (u.takeWhile isSpaceTab).reverse = nameL.dropWhile isJsWS := by
    rw [← List.reverse_append, List.takeWhile_append_dropWhile, hu, List.reverse_reverse]
  have hstep1 : v.reverse.dropWhile isJsWS = v.reverse := by
    apply dropWhile_eq_self_of_head
    intro c hc
    cases hvr : v.reverse with
    | nil => rw [hvr] at hc; exact absurd hc (by simp)
    | cons c0 v' =>
      rw [hvr] at hc
      simp only [List.head?_cons, Option.some.injEq] at hc
      subst hc
      have hh : (nameL.dropWhile isJsWS).head? = some c0 := by
        rw [← hsplit, hvr]; rfl
      have hnot := List.head?_dropWhile_not isJsWS nameL
      rw [hh] at hnot
      exact hnot
  unfold jsTrim
  rw [hstep1, List.reverse_reverse, hv,
    dropWhile_dropWhile_of_imp (fun c => isJsWS_of_isSpaceTab) u, hu]


/-- Valid lines `"<name> <id> <size>"` parse to the expected record. -/
theorem parseLine_valid (name id sz : String)
    (hid : id.toList ≠ []) (hida : ∀ c ∈ id.toList, isAlnumCh c = true)
    (hsz : sz.toList ≠ []) (hszd : ∀ c ∈ sz.toList, isDigitCh c = true)
    (hname : (jsTrim name.toList).filter (fun c => c != '/') ≠ []) :
    parseLine (name ++ " " ++ id ++ " " ++ sz) =
      some ⟨String.mk ((jsTrim name.toList).filter (fun c => c != '/')), id,
        digitsToNat sz.toList⟩ := by
  have hL : (name ++ " " ++ id ++ " " ++ sz).toList
      = name.toList ++ (' ' :: (id.toList ++ (' ' :: sz.toList))) := by
    simp [toList_append]
  have hn : name.toList.dropWhile isJsWS ≠ [] := by
    intro h0
    apply hname
    unfold jsTrim
    rw [h0]
    rfl
  obtain ⟨d, tl, hsr⟩ : ∃ d tl, sz.toList.reverse = d :: tl := by
    cases h : sz.toList.reverse with
    | nil => exact absurd (List.reverse_eq_nil_iff.mp h) hsz
    | cons d tl => exact ⟨d, tl, rfl⟩
  have hd : isDigitCh d = true :=
    hszd d (List.mem_reverse.mp (hsr ▸ List.mem_cons_self d tl))
  obtain ⟨e, el, hir⟩ : ∃ e el, id.toList.reverse = e :: el := by
    cases h : id.toList.reverse with
    | nil => exact absurd (List.reverse_eq_nil_iff.mp h) hid
    | cons e el => exact ⟨e, el, rfl⟩
  have he : isAlnumCh e = true :=
    hida e (List.mem_reverse.mp (hir ▸ List.mem_cons_self e el))
  have hfront :
      (name.toList ++ (' ' :: (id.toList ++ (' ' :: sz.toList)))).dropWhile isJsWS
        = name.toList.dropWhile isJsWS ++ (' ' :: (id.toList ++ (' ' :: sz.toList))) := by
    rw [List.dropWhile_append, if_neg (by simpa [List.isEmpty_iff] using hn)]
  have hrevt :
      ((name.toList.dropWhile isJsWS) ++ (' ' :: (id.toList ++ (' ' :: sz.toList)))).reverse
        = sz.toList.reverse ++
          (' ' :: (id.toList.reverse ++ (' ' :: (name.toList.dropWhile isJsWS).reverse))) := by
    simp
  have hhead :
      ((name.toList.dropWhile isJsWS ++
        (' ' :: (id.toList ++ (' ' :: sz.toList)))).reverse).head? = some d := by
    rw [hrevt, hsr]
    rfl
  have htrim : jsTrim ((name ++ " " ++ id ++ " " ++ sz).toList)
      = name.toList.dropWhile isJsWS ++ (' ' :: (id.toList ++ (' ' :: sz.toList))) := by
    rw [hL]
    have hcond : ∀ c,
        (((name.toList ++ (' ' :: (id.toList ++ (' ' :: sz.toList)))).dropWhile
          isJsWS).reverse).head? = some c → isJsWS c = false := by
      intro c hc
      rw [hfront, hhead] at hc
      have hdc : d = c := Option.some.inj hc
      subst hdc
      exact not_isJsWS_of_isDigitCh hd
    rw [jsTrim_eq_dropWhile hcond, hfront]
  have h1t : (sz.toList.reverse ++
        (' ' :: (id.toList.reverse ++
          (' ' :: (name.toList.dropWhile isJsWS).reverse)))).takeWhile isDigitCh
      = sz.toList.reverse := by
    rw [List.takeWhile_append_of_pos (fun a ha => hszd a (List.mem_reverse.mp ha)),
      List.takeWhile_cons_of_neg (by simp [isDigitCh_space])]
    simp
  have h1d : (sz.toList.reverse ++
        (' ' :: (id.toList.reverse ++
          (' ' :: (name.toList.dropWhile isJsWS).reverse)))).dropWhile isDigitCh
      = ' ' :: (id.toList.reverse ++ (' ' :: (name.toList.dropWhile isJsWS).reverse)) := by
    rw [List.dropWhile_append_of_pos (fun a ha => hszd a (List.mem_reverse.mp ha)),
      List.dropWhile_cons_of_neg (by simp [isDigitCh_space])]
  have h2 : (' ' :: (id.toList.reverse ++
        (' ' :: (name.toList.dropWhile isJsWS).reverse))).dropWhile isSpaceTab
      = id.toList.reverse ++ (' ' :: (name.toList.dropWhile isJsWS).reverse) := by
    rw [List.dropWhile_cons_of_pos (by simp [isSpaceTab_space]), hir, List.cons_append,
      List.dropWhile_cons_of_neg (by simp [not_isSpaceTab_of_isAlnumCh he])]
  have h3t : (id.toList.reverse ++
        (' ' :: (name.toList.dropWhile isJsWS).reverse)).takeWhile isAlnumCh
      = id.toList.reverse := by
    rw [List.takeWhile_append_of_pos (fun a ha => hida a (List.mem_reverse.mp ha)),
      List.takeWhile_cons_of_neg (by simp [isAlnumCh_space])]
    simp
  have h3d : (id.toList.reverse ++
        (' ' :: (name.toList.dropWhile isJsWS).reverse)).dropWhile isAlnumCh
      = ' ' :: (name.toList.dropWhile isJsWS).reverse := by
    rw [List.dropWhile_append_of_pos (fun a ha => hida a (List.mem_reverse.mp ha)),
      List.dropWhile_cons_of_neg (by simp [isAlnumCh_space])]
  have h4 : (' ' :: (name.toList.dropWhile isJsWS).reverse).dropWhile isSpaceTab
      = (name.toList.dropWhile isJsWS).reverse.dropWhile isSpaceTab :=
    List.dropWhile_cons_of_pos (by simp [isSpaceTab_space])
  simp only [parseLine]
  rw [htrim]
  rw [if_neg (by simp [List.isEmpty_iff])]
  rw [hrevt, h1t, h1d, h2, h3t, h3d, h4]
  rw [if_neg (by rw [hsr]; simp : ¬ (sz.toList.reverse.isEmpty = true))]
  rw [if_neg (by rw [hir]; simp : ¬ (id.toList.reverse.isEmpty = true))]
  rw [jsTrim_after_spaceTab_skip]
  rw [if_neg (by simpa [List.isEmpty_iff] using hname)]
  rw [List.reverse_reverse, List.reverse_reverse, mk_toList]


/-- A line whose digit run is preceded (after the separator) by a
non-alphanumeric, non-whitespace character is rejected: the CID scan
consumes zero characters. -/
theorem parseLine_reject_bad_cid (pre : String) (c : Char) (sz : String)
    (hc1 : isAlnumCh c = false) (hc2 : isJsWS c = false)
    (hsz : sz.toList ≠ []) (hszd : ∀ d ∈ sz.toList, isDigitCh d = true) :
    parseLine (pre ++ String.mk [c] ++ " " ++ sz) = none := by
  have hL : (pre ++ String.mk [c] ++ " " ++ sz).toList
      = pre.toList ++ (c :: (' ' :: sz.toList)) := by
    simp [toList_append]
  obtain ⟨d, tl, hsr⟩ : ∃ d tl, sz.toList.reverse = d :: tl := by
    cases h : sz.toList.reverse with
    | nil => exact absurd (List.reverse_eq_nil_iff.mp h) hsz
    | cons d tl => exact ⟨d, tl, rfl⟩
  have hd : isDigitCh d = true :=
    hszd d (List.mem_reverse.mp (hsr ▸ List.mem_cons_self d tl))
  have hfront : (pre.toList ++ (c :: (' ' :: sz.toList))).dropWhile isJsWS
      = pre.toList.dropWhile isJsWS ++ (c :: (' ' :: sz.toList)) := by
    rw [List.dropWhile_append]
    split_ifs with h
    · rw [List.dropWhile_cons_of_neg (by simp [hc2]),
        List.isEmpty_iff.mp h]
      rfl
    · rfl
  have hrevt : (pre.toList.dropWhile isJsWS ++ (c :: (' ' :: sz.toList))).reverse
      = sz.toList.reverse ++ (' ' :: (c :: (pre.toList.dropWhile isJsWS).reverse)) := by
    simp
  have hhead : ((pre.toList.dropWhile isJsWS ++ (c :: (' ' :: sz.toList))).reverse).head?
      = some d := by
    rw [hrevt, hsr]
    rfl
  have htrim : jsTrim ((pre ++ String.mk [c] ++ " " ++ sz).toList)
      = pre.toList.dropWhile isJsWS ++ (c :: (' ' :: sz.toList)) := by
    rw [hL]
    have hcond : ∀ x,
        (((pre.toList ++ (c :: (' ' :: sz.toList))).dropWhile isJsWS).reverse).head?
          = some x → isJsWS x = false := by
      intro x hx
      rw [hfront, hhead] at hx
      have hdx : d = x := Option.some.inj hx
      subst hdx
      exact not_isJsWS_of_isDigitCh hd
    rw [jsTrim_eq_dropWhile hcond, hfront]
  have h1t : (sz.toList.reverse ++
        (' ' :: (c :: (pre.toList.dropWhile isJsWS).reverse))).takeWhile isDigitCh
      = sz.toList.reverse := by
    rw [List.takeWhile_append_of_pos (fun a ha => hszd a (List.mem_reverse.mp ha)),
      List.takeWhile_cons_of_neg (by simp [isDigitCh_space])]
    simp
  have h1d : (sz.toList.reverse ++
        (' ' :: (c :: (pre.toList.dropWhile isJsWS).reverse))).dropWhile isDigitCh
      = ' ' :: (c :: (pre.toList.dropWhile isJsWS).reverse) := by
    rw [List.dropWhile_append_of_pos (fun a ha => hszd a (List.mem_reverse.mp ha)),
      List.dropWhile_cons_of_neg (by simp [isDigitCh_space])]
  have h2 : (' ' :: (c :: (pre.toList.dropWhile isJsWS).reverse)).dropWhile isSpaceTab
      = c :: (pre.toList.dropWhile isJsWS).reverse := by
    rw [List.dropWhile_cons_of_pos (by simp [isSpaceTab_space]),
      List.dropWhile_cons_of_neg (by simp [not_isSpaceTab_of_not_isJsWS hc2])]
  simp only [parseLine]
  rw [htrim]
  rw [if_neg (by simp [List.isEmpty_iff])]
  rw [hrevt, h1t, h1d, h2]
  rw [if_neg (by rw [hsr]; simp : ¬ (sz.toList.reverse.isEmpty = true))]
  rw [List.takeWhile_cons_of_neg (by simp [hc1])]
  rfl

/-! ## Claim theorems -/

/-- C1: for every on-chain record and current block height, `queryFileCid`
returns status `NotFound` with 0 replicas and display size `"Unknown"` when
the record has no (truthy) size field; otherwise it classifies `Expired`
when `currentHeight >= expired_at` (defaulting to 0 when absent), else
`Success` when the replica count is positive, else `Pending` — expiry is
checked before the replica count, so an expired-but-replicated record is
never `Success`. -/
theorem statusClassifier_priority (rec : Option OnchainRecord) (h : Nat) :
    (hasTruthySize rec = false → queryFileCid rec h = ⟨"NotFound", 0, "Unknown"⟩)
    ∧ (∀ r n, rec = some r → r.file_size = some n → n ≠ 0 →
        queryFileCid rec h =
          ⟨if h ≥ r.expired_at.getD 0 then "Expired"
            else if r.reported_replica_count.getD 0 > 0 then "Success"
            else "Pending",
            r.reported_replica_count.getD 0, toString n⟩) := by
  constructor
  · intro hf
    match rec with
    | none => rfl
    | some r =>
      match hfs : r.file_size with
      | none => simp [queryFileCid, hfs]
      | some n =>
        have hn0 : (n != 0) = false := by simpa [hasTruthySize, hfs] using hf
        simp [queryFileCid, hfs, hn0]
  · intro r n hrec hfs hn
    subst hrec
    simp [queryFileCid, hfs, hn]

/-- Witness for C1: a replicated (2 replicas) but expired (height 60 ≥
expiry 50) record is classified `Expired`, not `Success`. -/
theorem statusClassifier_priority_witness :
    queryFileCid (some ⟨some 100, some 2, some 50⟩) 60 = ⟨"Expired", 2, "100"⟩ :=
  ((statusClassifier_priority (some ⟨some 100, some 2, some 50⟩) 60).2
    ⟨some 100, some 2, some 50⟩ 100 rfl rfl (by decide)).trans (by decide)

/-- C9: a record whose `file_size` field is present but `0` is classified
exactly like one whose size field is absent: `NotFound`, 0 replicas,
display size `"Unknown"`. -/
theorem zeroSize_classified_notFound (r : OnchainRecord) (h : Nat)
    (hz : r.file_size = some 0) :
    queryFileCid (some r) h
        = queryFileCid (some ⟨none, r.reported_replica_count, r.expired_at⟩) h
    ∧ queryFileCid (some r) h = ⟨"NotFound", 0, "Unknown"⟩ := by
  constructor <;> simp [queryFileCid, hz]

/-- Witness for C9: a zero-size record with 5 replicas and a future expiry
is still `NotFound`. -/
theorem zeroSize_classified_notFound_witness :
    queryFileCid (some ⟨some 0, some 5, some 100⟩) 7 = ⟨"NotFound", 0, "Unknown"⟩ :=
  (zeroSize_classified_notFound ⟨some 0, some 5, some 100⟩ 7 rfl).2

/-- Counterexample to C2: on the spec's own example line `"name a/b 123"`
the parser does not reject — the alphanumeric scan recovers `"b"` as the
identifier, stopping at the `'/'`, and the name becomes `"name a"`. -/
theorem lineParser_punct_counterexample :
    parseLine "name a/b 123" = some ⟨"name a", "b", 123⟩
    ∧ ¬ parseLine "name a/b 123" = none := by decide

/-- C2 (amended): the parser rejects when the character immediately to the
left of the separator-and-digits suffix is non-alphanumeric (and not
whitespace) — i.e. the second-to-last token ends in punctuation; a token
with internal punctuation such as `a/b` instead parses, yielding its
trailing alphanumeric run as the identifier. -/
theorem lineParser_punct_amended (pre : String) (c : Char) (sz : String)
    (hc1 : isAlnumCh c = false) (hc2 : isJsWS c = false)
    (hsz : sz.toList ≠ []) (hszd : ∀ d ∈ sz.toList, isDigitCh d = true) :
    parseLine (pre ++ String.mk [c] ++ " " ++ sz) = none
    ∧ parseLine "name a/b 123" = some ⟨"name a", "b", 123⟩ :=
  ⟨parseLine_reject_bad_cid pre c sz hc1 hc2 hsz hszd, by decide⟩

/-- Witness for amended C2: `"name a/ 123"` (second-to-last token ends in
`'/'`) is rejected. -/
theorem lineParser_punct_amended_witness :
    parseLine ("name a" ++ String.mk ['/'] ++ " " ++ "123") = none :=
  (lineParser_punct_amended "name a" '/' "123" (by decide) (by decide) (by decide)
    (by decide)).1

/-- Counterexample to C3: the name `"/"` is non-empty, yet the line
`"/ id123 10"` is rejected (`none`) because the name is empty after slash
stripping, where the claim promises a parsed record. -/
theorem lineParser_valid_counterexample :
    parseLine ("/" ++ " " ++ "id123" ++ " " ++ "10") = none
    ∧ ("/" : String) ≠ "" := by decide

/-- C3 (amended): every line `"<name> <id> <size>"` with `size` a non-empty
digit string, `id` non-empty alphanumeric, and `name` still non-empty after
whitespace trimming and `'/'` stripping parses to exactly
`{fileName := trimmed-and-slash-stripped name, fileCid := id,
fileSize := value of size}`; in particular `"my/file id123 10"` yields
`{"myfile", "id123", 10}`. -/
theorem lineParser_valid_amended (name id sz : String)
    (hid : id.toList ≠ []) (hida : ∀ c ∈ id.toList, isAlnumCh c = true)
    (hsz : sz.toList ≠ []) (hszd : ∀ c ∈ sz.toList, isDigitCh c = true)
    (hname : (jsTrim name.toList).filter (fun c => c != '/') ≠ []) :
    parseLine (name ++ " " ++ id ++ " " ++ sz) =
      some ⟨String.mk ((jsTrim name.toList).filter (fun c => c != '/')), id,
        digitsToNat sz.toList⟩
    ∧ parseLine "my/file id123 10" = some ⟨"myfile", "id123", 10⟩ :=
  ⟨parseLine_valid name id sz hid hida hsz hszd hname, by decide⟩

/-- Witness for amended C3: the spec's example `"my/file id123 10"`. -/
theorem lineParser_valid_amended_witness :
    parseLine ("my/file" ++ " " ++ "id123" ++ " " ++ "10") =
      some ⟨String.mk ((jsTrim "my/file".toList).filter (fun c => c != '/')), "id123",
        digitsToNat "10".toList⟩ :=
  (lineParser_valid_amended "my/file" "id123" "10" (by decide) (by decide) (by decide)
    (by decide) (by decide)).1

/-- C4: with the default maximum of 3 attempts, the retry wrapper invokes
the operation at most 3 times; if the first `k` attempts fail and attempt
`k` (0-based, `k < 3`) succeeds, it returns that success after exactly
`k + 1` invocations (no further calls after a success); and if all 3
attempts fail it propagates the error of the last attempt. -/
theorem retryWrapper_default {ε α : Type} (op : Nat → Except ε α) :
    (retryOperation op 3).2 ≤ 3
    ∧ (∀ k a, k < 3 → (∀ j, j < k → ∃ e, op j = Except.error e) → op k = Except.ok a →
        retryOperation op 3 = (Except.ok a, k + 1))
    ∧ (∀ e0 e1 e2, op 0 = Except.error e0 → op 1 = Except.error e1 →
        op 2 = Except.error e2 → retryOperation op 3 = (Except.error e2, 3)) := by
  refine ⟨?_, ?_, ?_⟩
  · cases h0 : op 0 with
    | ok a => simp [retryOperation, retryGo, h0]
    | error e0 =>
      cases h1 : op 1 with
      | ok a => simp [retryOperation, retryGo, h0, h1]
      | error e1 =>
        cases h2 : op 2 with
        | ok a => simp [retryOperation, retryGo, h0, h1, h2]
        | error e2 => simp [retryOperation, retryGo, h0, h1, h2]
  · intro k a hk hfail hok
    interval_cases k
    · simp [retryOperation, retryGo, hok]
    · obtain ⟨e0, he0⟩ := hfail 0 (by omega)
      simp [retryOperation, retryGo, he0, hok]
    · obtain ⟨e0, he0⟩ := hfail 0 (by omega)
      obtain ⟨e1, he1⟩ := hfail 1 (by omega)
      simp [retryOperation, retryGo, he0, he1, hok]
  · intro e0 e1 e2 h0 h1 h2
    simp [retryOperation, retryGo, h0, h1, h2]

/-- Per-line invariant of the processing loop, for an arbitrary starting
line number `n`: lengths add up, and every skipped entry records its
parse outcome in `parsedData` and its provenance in `lineNumber`/`line`. -/
theorem processGo_spec (query : String → Except String QueryResult)
    (lines : List String) : ∀ n : Nat,
    (processGo query n lines).1.length + (processGo query n lines).2.length = lines.length
    ∧ ∀ s ∈ (processGo query n lines).2,
        s.parsedData = parseLine s.line
        ∧ ∃ i, i < lines.length ∧ s.lineNumber = n + i ∧ lines[i]? = some s.line := by
  induction lines with
  | nil => intro n; simp [processGo]
  | cons l rest ih =>
    intro n
    cases hp : parseLine l with
    | none =>
      have hgo : processGo query n (l :: rest)
          = ((processGo query (n + 1) rest).1,
            ⟨n, l, "Incorrect format", none⟩ :: (processGo query (n + 1) rest).2) := by
        simp [processGo, hp]
      have hlen := (ih (n + 1)).1
      constructor
      · rw [hgo]
        simp only [List.length_cons]
        omega
      · intro s hs
        rw [hgo] at hs
        simp only [List.mem_cons] at hs
        rcases hs with rfl | hs
        · exact ⟨by simp [hp], 0, by simp, by simp, by simp⟩
        · obtain ⟨h1, i, hi, hn2, hl⟩ := (ih (n + 1)).2 s hs
          exact ⟨h1, i + 1, by simp; omega, by omega, by simpa using hl⟩
    | some parsed =>
      cases hq : query parsed.fileCid with
      | ok q =>
        have hgo : processGo query n (l :: rest)
            = (⟨parsed.fileName, parsed.fileCid,
                q.responseFileSize ++ " (" ++ toString parsed.fileSize ++ ")",
                q.fileOnchainStatus, q.fileReplicas⟩ :: (processGo query (n + 1) rest).1,
              (processGo query (n + 1) rest).2) := by
          simp [processGo, hp, hq]
        have hlen := (ih (n + 1)).1
        constructor
        · rw [hgo]
          simp only [List.length_cons]
          omega
        · intro s hs
          rw [hgo] at hs
          obtain ⟨h1, i, hi, hn2, hl⟩ := (ih (n + 1)).2 s hs
          exact ⟨h1, i + 1, by simp; omega, by omega, by simpa using hl⟩
      | error e =>
        have hgo : processGo query n (l :: rest)
            = ((processGo query (n + 1) rest).1,
              ⟨n, l, "Query failed after retries: " ++ e, some parsed⟩ ::
                (processGo query (n + 1) rest).2) := by
          simp [processGo, hp, hq]
        have hlen := (ih (n + 1)).1
        constructor
        · rw [hgo]
          simp only [List.length_cons]
          omega
        · intro s hs
          rw [hgo] at hs
          simp only [List.mem_cons] at hs
          rcases hs with rfl | hs
          · exact ⟨by simp [hp], 0, by simp, by simp, by simp⟩
          · obtain ⟨h1, i, hi, hn2, hl⟩ := (ih (n + 1)).2 s hs
            exact ⟨h1, i + 1, by simp; omega, by omega, by simpa using hl⟩

/-- C6: every input line yields exactly one of a result or a skipped entry
(the two collection lengths sum to the number of lines), and each skipped
entry stores exactly the parse outcome of its own line in `parsedData` —
`none` iff the line was rejected at parse time, `some` iff it parsed and
the query failed — together with its 1-based line number. -/
theorem orchestrator_partition (query : String → Except String QueryResult)
    (lines : List String) :
    (processLines query lines).1.length + (processLines query lines).2.length = lines.length
    ∧ ∀ s ∈ (processLines query lines).2,
        s.parsedData = parseLine s.line
        ∧ 1 ≤ s.lineNumber ∧ s.lineNumber ≤ lines.length
        ∧ lines[s.lineNumber - 1]? = some s.line := by
  have h := processGo_spec query lines 1
  refine ⟨h.1, ?_⟩
  intro s hs
  obtain ⟨h1, i, hi, hn2, hl⟩ := h.2 s hs
  have hidx : s.lineNumber - 1 = i := by omega
  exact ⟨h1, by omega, by omega, by rw [hidx]; exact hl⟩

/-- C5 helper: the TABLE 2 predicate is equivalent to
"status is not Success, or the replica count is below the threshold". -/
theorem table2Pred_iff (m : Int) (r : ResultItem) :
    table2Pred m r = true ↔
      (r.fileOnchainStatus ≠ "Success" ∨ (r.fileReplicas : Int) < m) := by
  by_cases hs : r.fileOnchainStatus = "Success"
  · simp [table2Pred, hs]
  · simp [table2Pred, hs]

/-- C5: a result appears in the TABLE 2 filter iff its status is not
`Success` or its replica count is below `minReplicasCount`; the filtered
list is a sublist of the results (original order preserved); and a
`Success` result with 2 replicas passes the filter at threshold 3 but not
at threshold 2. -/
theorem table2_filter_spec (results : List ResultItem) (minReplicasCount : Int) :
    (∀ r, r ∈ results.filter (table2Pred minReplicasCount) ↔
      r ∈ results ∧
        (r.fileOnchainStatus ≠ "Success" ∨ (r.fileReplicas : Int) < minReplicasCount))
    ∧ (results.filter (table2Pred minReplicasCount)).Sublist results
    ∧ (∀ r, r.fileOnchainStatus = "Success" → r.fileReplicas = 2 →
        table2Pred 3 r = true ∧ table2Pred 2 r = false) := by
  refine ⟨?_, List.filter_sublist _, ?_⟩
  · intro r
    rw [List.mem_filter, table2Pred_iff]
  · intro r h1 h2
    constructor
    · simp [table2Pred, h1, h2]
    · simp [table2Pred, h1, h2]

/-- Witness for C5: a `Success` result with 2 replicas is on the attention
list at threshold 3 and off it at threshold 2. -/
theorem table2_filter_spec_witness :
    table2Pred 3 ⟨"f", "c", "10 (10)", "Success", 2⟩ = true
    ∧ table2Pred 2 ⟨"f", "c", "10 (10)", "Success", 2⟩ = false :=
  (table2_filter_spec [] 0).2.2 ⟨"f", "c", "10 (10)", "Success", 2⟩ rfl rfl

/-- Witness for C4: an operation failing twice then succeeding returns the
success value after exactly 3 invocations. -/
theorem retryWrapper_default_witness :
    retryOperation opFailTwice 3 = (Except.ok 42, 3) :=
  (retryWrapper_default opFailTwice).2.1 2 42 (by decide)
    (fun j hj => ⟨"fail " ++ toString j, by interval_cases j <;> rfl⟩) rfl

/-- Witness for C6: with two input lines — one parsing but failing its
query, one unparseable — the skipped entry of the first line carries
`parsedData` equal to its parse result and line number 1. -/
theorem orchestrator_partition_witness :
    some (⟨"MyFile", "QmAAA", 123456⟩ : ParsedLine) = parseLine "MyFile QmAAA 123456"
    ∧ 1 ≤ 1 ∧ 1 ≤ (["MyFile QmAAA 123456", "BadLineNoDigits"] : List String).length
    ∧ (["MyFile QmAAA 123456", "BadLineNoDigits"] : List String)[0]?
        = some "MyFile QmAAA 123456" :=
  (orchestrator_partition (fun _ => Except.error "boom")
    ["MyFile QmAAA 123456", "BadLineNoDigits"]).2
    ⟨1, "MyFile QmAAA 123456", "Query failed after retries: boom",
      some ⟨"MyFile", "QmAAA", 123456⟩⟩ (by decide)

/-- C7: in `table2` mode with an empty TABLE 2, no log file is written
(`outputFileLines` is `none`), whatever the other inputs. -/
theorem table2Mode_empty_noop (results : List ResultItem)
    (skippedLines : List SkippedLine) (saveLog : Bool) (optMinReplicas : String)
    (h : table2Data results (effectiveMinReplicas optMinReplicas) = []) :
    outputFileLines results skippedLines saveLog (some "table2") optMinReplicas = none := by
  cases saveLog with
  | false => rfl
  | true => simp [outputFileLines, h]

/-- Witness for C7: no results at all, threshold string `"3"`. -/
theorem table2Mode_empty_noop_witness :
    outputFileLines [] [] true (some "table2") "3" = none :=
  table2Mode_empty_noop [] [] true "3" rfl

/-- Counterexample to C8: `--out` supplied with the empty string is
"supplied", so the claimed precedence forces save on, but the code tests
truthiness and `''` is falsy, so save stays off. -/
theorem saveLog_precedence_counterexample :
    computeSaveLog false (some "") none = false
    ∧ saveLogClaimedPrecedence false (some "") none = true := by decide

/-- C8 (amended): the save flag follows the claimed precedence with the
`--out` branch firing on a supplied NON-EMPTY value: explicit
`--save-log-mode` forces save on; else a truthy (non-empty) `--out` forces
save on; else a supplied `--save-log` decides by its boolean value; else
save is off. -/
theorem saveLog_precedence_amended (sp : Bool) (o l : Option String) :
    (sp = true → computeSaveLog sp o l = true)
    ∧ (sp = false → jsTruthy o = true → computeSaveLog sp o l = true)
    ∧ (sp = false → jsTruthy o = false → ∀ v, l = some v →
        computeSaveLog sp o l = parseBoolean v)
    ∧ (sp = false → jsTruthy o = false → l = none → computeSaveLog sp o l = false) := by
  refine ⟨?_, ?_, ?_, ?_⟩
  · intro h
    subst h
    rfl
  · intro h1 h2
    subst h1
    simp [computeSaveLog, h2]
  · intro h1 h2 v hv
    subst h1
    subst hv
    simp [computeSaveLog, h2]
  · intro h1 h2 h3
    subst h1
    subst h3
    simp [computeSaveLog, h2]

/-- Witness for amended C8: with no mode and no `--out`, a supplied
`--save-log TRUE` decides the flag (case-insensitively). -/
theorem saveLog_precedence_amended_witness :
    computeSaveLog false none (some "TRUE") = parseBoolean "TRUE"
    ∧ parseBoolean "TRUE" = true :=
  ⟨(saveLog_precedence_amended false none (some "TRUE")).2.2.1 rfl rfl "TRUE" rfl,
    by decide⟩

/-- C10: whenever `parseInt` of the `--min-replicas-count` value is `NaN`
or `0`, the effective threshold is the default 3, and the report assembler
behaves exactly as with `"3"`. -/
theorem minReplicas_falsy_default (s : String)
    (h : jsParseInt s = none ∨ jsParseInt s = some 0) :
    effectiveMinReplicas s = 3
    ∧ ∀ (results : List ResultItem) (skippedLines : List SkippedLine) (saveLog : Bool)
        (optSaveLogMode : Option String),
        outputFileLines results skippedLines saveLog optSaveLogMode s
          = outputFileLines results skippedLines saveLog optSaveLogMode "3" := by
  have he : effectiveMinReplicas s = 3 := by
    rcases h with h | h <;> simp [effectiveMinReplicas, h]
  refine ⟨he, ?_⟩
  intro results skippedLines saveLog optSaveLogMode
  have h3 : effectiveMinReplicas "3" = 3 := by decide
  simp only [outputFileLines, he, h3]

/-- Witness for C10: the explicit value `"0"` parses to `0` yet yields the
default threshold 3. -/
theorem minReplicas_falsy_default_witness :
    effectiveMinReplicas "0" = 3 ∧ jsParseInt "0" = some 0 :=
  ⟨(minReplicas_falsy_default "0" (Or.inr (by decide))).1, by decide⟩

end CrustOrderStatus
